import Mathlib

/-!
Verification development for the `ssl-checker-go` repository.

The repository consists of two small Go programs:

* `netlify/functions/check-ssl/check-ssl.go` — an AWS-Lambda style
  `handler` (Endpoint A) that dials `ip:443` over TLS with
  `InsecureSkipVerify: true`, collects the peer certificate chain,
  summarises every certificate, and runs an explicit post-handshake
  chain verification; and
* `main.go` — an HTTP `handleRequest` (Endpoint B) that parses an
  `https` URL, dials `host:port` (port defaulting to `443`) with
  `tls.Dial(_, _, nil)`, and reports the leaf certificate expiry.

The Go code is embedded shallowly below: network and x509-library
behaviour is abstracted into a `Network` record of oracles, while the
program logic itself (parameter checks, URL parsing, host/port
splitting, chain-to-summary conversion, intermediate-pool assembly,
response construction) is translated function by function from the
source.  Times are instants tagged with a location name; the Go
`time.Time.UTC()` conversion only changes the location tag.
-/

namespace SSLCheck

/-- Model of Go `time.Time`: an absolute instant (unix seconds) together
with the location attached to the value.  `UTC()` changes only the
location tag, never the instant. -/
structure Time where
  unix : Int
  loc : String
deriving DecidableEq

/-- Model of Go `(time.Time).UTC()`. -/
def Time.utc (t : Time) : Time :=
  { unix := t.unix, loc := "UTC" }

/-- The fields of Go `x509.Certificate` that the program reads. -/
structure Certificate where
  subject : String
  issuer : String
  notBefore : Time
  notAfter : Time
  dnsNames : List String
  isCA : Bool
  signatureAlgorithm : String
deriving DecidableEq

/-- Go struct `CertInfo` of `check-ssl.go` (one chain entry of the JSON
response).  The `dns_names` JSON field is tagged `omitempty`, so an
empty list renders as an absent field. -/
structure CertInfo where
  subject : String
  issuer : String
  notBefore : Time
  notAfter : Time
  dnsNames : List String
  isCA : Bool
  signatureAlgo : String
deriving DecidableEq

/-- One iteration body of the summary loop of `check-ssl.go` lines
81-95: every field is copied (timestamps through `.UTC()`), and
`DNSNames` is populated only when the summary list built so far is
empty, i.e. for the first certificate. -/
def mkCertInfo (first : Bool) (cert : Certificate) : CertInfo :=
  { subject := cert.subject
    issuer := cert.issuer
    notBefore := cert.notBefore.utc
    notAfter := cert.notAfter.utc
    dnsNames := if first then cert.dnsNames else []
    isCA := cert.isCA
    signatureAlgo := cert.signatureAlgorithm }

/-- The summary loop of `check-ssl.go` lines 80-95, with `acc` playing
the role of the `certInfos` slice being appended to. -/
def certInfosLoop : List Certificate → List CertInfo → List CertInfo
  | [], acc => acc
  | cert :: rest, acc => certInfosLoop rest (acc ++ [mkCertInfo acc.isEmpty cert])

/-- The whole summary loop started from the empty `certInfos` slice. -/
def buildCertInfos (certs : List Certificate) : List CertInfo :=
  certInfosLoop certs []

/-- Model of `x509.CertPool.AddCert`: the Go pool skips a certificate
that is already present, so the pool is a duplicate-free list. -/
def certPoolAdd (pool : List Certificate) (cert : Certificate) : List Certificate :=
  if cert ∈ pool then pool else pool ++ [cert]

/-- The intermediate-pool loop of `check-ssl.go` lines 98-103:
`for i, cert := range certs { if i > 0 { intermediates.AddCert(cert) } }`,
with the range index made explicit. -/
def intermediatesLoop : Nat → List Certificate → List Certificate → List Certificate
  | _, [], pool => pool
  | i, cert :: rest, pool =>
      intermediatesLoop (i + 1) rest (if i > 0 then certPoolAdd pool cert else pool)

/-- The intermediates pool built by `check-ssl.go` lines 98-103 from the
peer chain. -/
def buildIntermediates (certs : List Certificate) : List Certificate :=
  intermediatesLoop 0 certs []

/-- The fields of Go `tls.Config` that the program sets. -/
structure TLSConfig where
  serverName : String
  insecureSkipVerify : Bool
deriving DecidableEq

/-- The part of a completed `tls.Conn` that the program reads:
`conn.ConnectionState().PeerCertificates`. -/
structure TLSConn where
  peerCertificates : List Certificate
deriving DecidableEq

/-- The fields of Go `x509.VerifyOptions` that `check-ssl.go` sets
(`Roots` is left nil, meaning the system root pool — part of the
abstract verification oracle below). -/
structure VerifyOptions where
  dnsName : String
  intermediates : List Certificate
deriving DecidableEq

/-- Abstraction of everything outside the program: the network and the
TLS and x509 library internals.
  * `connect addr` — outcome of establishing the transport connection
    and exchanging TLS messages with `addr`: an error string, or the
    peer certificate chain in presentation order.
  * `handshakeVerify chain name` — the verification the TLS library
    itself performs during the handshake when `InsecureSkipVerify` is
    NOT set (`some errText` aborts the handshake).
  * `x509Verify chain opts` — the outcome of the x509 chain
    verification call of `check-ssl.go` line 113 (`none` = chain valid,
    `some errText` = the verification error text).  NOTE: the source
    writes `certs.Verify(validationOpts)` where `certs` is the
    `[]*x509.Certificate` slice; Go defines `Verify` on
    `*x509.Certificate` only, so that line does not compile — the
    oracle mirrors the data flow of the call as written (whole chain
    plus options). -/
structure Network where
  connect : String → Except String (List Certificate)
  handshakeVerify : List Certificate → String → Option String
  x509Verify : List Certificate → VerifyOptions → Option String

/-- Description of one `tls.DialWithDialer` call: dialer timeout (in
milliseconds), network, address, and TLS configuration. -/
structure DialCall where
  timeoutMillis : Nat
  network : String
  address : String
  config : TLSConfig
deriving DecidableEq

/-- Endpoint A builds `&net.Dialer{Timeout: 5 * time.Second}`
(`check-ssl.go` line 63). -/
def handlerDialerTimeoutMillis : Nat := 5000

/-- `tls.Dial` uses `new(net.Dialer)`; the zero `Timeout` of a
`net.Dialer` means no timeout at all. -/
def tlsDialDefaultTimeoutMillis : Nat := 0

/-- A dial is bounded when its dialer carries a nonzero timeout
(`net.Dialer` semantics: a zero `Timeout` imposes no bound). -/
def dialBounded (timeoutMillis : Nat) : Prop := 0 < timeoutMillis

/-- Model of `tls.DialWithDialer`: connect, then — unless
`InsecureSkipVerify` is set — run the library's own handshake-time
chain verification, aborting the handshake on failure.  The dialer
timeout and the network string do not influence the functional result
(there is no real time in the model); they are retained as data. -/
def runDial (net : Network) (call : DialCall) : Except String TLSConn :=
  match net.connect call.address with
  | Except.error e => Except.error e
  | Except.ok chain =>
      if call.config.insecureSkipVerify then Except.ok { peerCertificates := chain }
      else
        match net.handshakeVerify chain call.config.serverName with
        | some e => Except.error e
        | none => Except.ok { peerCertificates := chain }

/-- Model of Go `net.JoinHostPort`. -/
def joinHostPort (host port : String) : String :=
  if host.contains ':' then "[" ++ host ++ "]:" ++ port
  else host ++ ":" ++ port

/-- Cut a character list at the first occurrence of `c`, dropping the
occurrence (Go `strings.Cut`): returns the parts before and after. -/
def cutDrop (c : Char) (s : List Char) : List Char × List Char :=
  let p := s.span (fun a => a != c)
  (p.1, p.2.drop 1)

/-- Cut a character list at the first occurrence of `c`, keeping the
occurrence in the second part (Go `strings.Index` followed by slicing). -/
def cutKeep (c : Char) (s : List Char) : List Char × List Char :=
  let p := s.span (fun a => a != c)
  (p.1, p.2)

/-- Split a character list around the LAST occurrence of `c`
(Go `strings.LastIndex`): `none` when `c` does not occur. -/
def splitAtLastChar (c : Char) (s : List Char) : Option (List Char × List Char) :=
  let r := s.reverse.span (fun a => a != c)
  match r.2 with
  | [] => none
  | _ :: beforeRev => some (beforeRev.reverse, r.1.reverse)

/-- Model of `net/url.validOptionalPort`: empty, or `:` followed by
decimal digits only. -/
def validOptionalPort (p : List Char) : Bool :=
  match p with
  | [] => true
  | c :: rest => c == ':' && rest.all Char.isDigit

/-- Result of `net/url.getScheme`. -/
inductive SchemeResult where
  | err
  | noScheme
  | found (scheme rest : List Char)

/-- Model of the scanning loop of `net/url.getScheme`: a scheme is a
letter followed by letters, digits, `+`, `-` or `.`, terminated by a
colon; a colon as the very first character is an error; any other shape
means the URL carries no scheme. -/
def getSchemeAux (acc : List Char) : List Char → SchemeResult
  | [] => SchemeResult.noScheme
  | c :: rest =>
      if c.isAlpha then getSchemeAux (acc ++ [c]) rest
      else if c.isDigit || c == '+' || c == '-' || c == '.' then
        if acc.isEmpty then SchemeResult.noScheme else getSchemeAux (acc ++ [c]) rest
      else if c == ':' then
        if acc.isEmpty then SchemeResult.err else SchemeResult.found acc rest
      else SchemeResult.noScheme

/-- Model of `net/url.getScheme`: `none` on the missing-protocol-scheme
error, otherwise the (possibly empty) scheme and the remainder.  As in
`url.Parse`, the scheme is lowercased. -/
def getScheme (s : List Char) : Option (List Char × List Char) :=
  match getSchemeAux [] s with
  | SchemeResult.err => none
  | SchemeResult.noScheme => some ([], s)
  | SchemeResult.found scheme rest => some (scheme.map Char.toLower, rest)

/-- Model of `net/url.parseHost`: a bracketed host needs a closing `]`
followed by a valid optional port; otherwise anything after the last
colon must be a valid port.  The `Host` field keeps the port and the
brackets.  (Percent-escape validation and IPv6 zones are outside the
model.) -/
def parseHost (host : List Char) : Option (List Char) :=
  if host.head? = some '[' then
    match splitAtLastChar ']' host with
    | none => none
    | some (_, after) => if validOptionalPort after then some host else none
  else
    match splitAtLastChar ':' host with
    | none => some host
    | some (_, after) => if after.all Char.isDigit then some host else none

/-- Model of `net/url.parseAuthority`: the host is everything after the
last `@` (userinfo validation is outside the model). -/
def parseAuthority (authority : List Char) : Option (List Char) :=
  match splitAtLastChar '@' authority with
  | none => parseHost authority
  | some (_, after) => parseHost after

/-- The fields of Go `url.URL` that the program reads. -/
structure URL where
  scheme : String
  host : String
  path : String
deriving DecidableEq

/-- Model of Go `url.Parse` restricted to the fields above: cut the
fragment at the first `#`, read the scheme, cut the query at the first
`?`, and when the remainder starts with `//` read the authority up to
the next `/`.  A URL with a scheme but no leading slash is opaque
(empty `Host`); without a scheme, a colon inside the first path segment
is an error. -/
def urlParse (rawURL : String) : Option URL :=
  let s := (cutDrop '#' rawURL.data).1
  match getScheme s with
  | none => none
  | some (scheme, afterScheme) =>
      let rest := (cutDrop '?' afterScheme).1
      if rest.head? ≠ some '/' then
        if scheme ≠ [] then some { scheme := String.mk scheme, host := "", path := "" }
        else if (cutKeep '/' rest).1.contains ':' then none
        else some { scheme := "", host := "", path := String.mk rest }
      else if (decide (scheme ≠ []) || !(rest.take 3 == ['/', '/', '/'])) && rest.take 2 == ['/', '/'] then
        let a := cutKeep '/' (rest.drop 2)
        match parseAuthority a.1 with
        | none => none
        | some host => some { scheme := String.mk scheme, host := String.mk host, path := String.mk a.2 }
      else
        some { scheme := String.mk scheme, host := "", path := String.mk rest }

/-- Model of the private `net/url.splitHostPort` backing `URL.Port` and
`URL.Hostname`: strip a valid numeric port after the last colon, then
strip surrounding brackets. -/
def splitHostPort (hostPort : List Char) : List Char × List Char :=
  let hp : List Char × List Char :=
    match splitAtLastChar ':' hostPort with
    | none => (hostPort, [])
    | some (before, after) =>
        if after.all Char.isDigit then (before, after) else (hostPort, [])
  if hp.1.head? = some '[' ∧ hp.1.getLast? = some ']' then
    ((hp.1.drop 1).dropLast, hp.2)
  else (hp.1, hp.2)

/-- Model of Go `(url.URL).Port()`. -/
def urlPort (u : URL) : String :=
  String.mk (splitHostPort u.host.data).2

/-- Model of Go `(url.URL).Hostname()`. -/
def urlHostname (u : URL) : String :=
  String.mk (splitHostPort u.host.data).1

/-- The server name `tls.DialWithDialer` infers from the address when
the config carries none: everything before the last colon (the whole
address when there is no colon). -/
def serverNameFromAddr (addr : String) : String :=
  match splitAtLastChar ':' addr.data with
  | none => addr
  | some (before, _) => String.mk before

/-- Hostname extraction of `check-ssl.go` lines 52-56: the `url` query
parameter is parsed, and replaced by its `Host` field exactly when the
parse succeeds with a non-empty host. -/
def extractHostname (hostname : String) : String :=
  match urlParse hostname with
  | some u => if u.host ≠ "" then u.host else hostname
  | none => hostname

/-- The dial performed by Endpoint A (`check-ssl.go` lines 60-67):
address `net.JoinHostPort(ip, "443")`, dialer timeout 5 s, and a config
with `ServerName` the extracted hostname and `InsecureSkipVerify: true`. -/
def handlerDialCall (ip rawURL : String) : DialCall :=
  { timeoutMillis := handlerDialerTimeoutMillis
    network := "tcp"
    address := joinHostPort ip "443"
    config := { serverName := extractHostname rawURL, insecureSkipVerify := true } }

/-- Go struct `Response` of `check-ssl.go` (the JSON payload of the
200 answer). -/
structure Response where
  targetURL : String
  certificates : List CertInfo
  chainValidation : String
deriving DecidableEq

/-- The validation message of `check-ssl.go` lines 112-115: the
canonical valid message, or the verification error text appended to the
failure prefix. -/
def validationMessageOf : Option String → String
  | some e => "Certificate chain verification failed: " ++ e
  | none => "Certificate chain is valid."

/-- Outcome of Endpoint A: an error response built by
`createErrorResponse` (status code and message; the body is the message
interpolated into a JSON error object), or the 200 response carrying
the marshalled `Response` payload.  `json.MarshalIndent` cannot fail on
`Response` (all its fields are marshallable plain values), so the
success path always reaches status 200. -/
inductive HandlerResult where
  | errorResponse (statusCode : Nat) (message : String)
  | success (payload : Response)
deriving DecidableEq

/-- The HTTP status code carried by a `HandlerResult` (a success is
rendered with status 200, `check-ssl.go` line 130). -/
def HandlerResult.statusCode : HandlerResult → Nat
  | HandlerResult.errorResponse code _ => code
  | HandlerResult.success _ => 200

/-- Endpoint A — the Lambda `handler` of `check-ssl.go`, line by line:
require `ip` and `url`; extract the hostname; dial `ip:443` with
`InsecureSkipVerify: true`; fail with 500 on a dial error or an empty
peer chain; summarise every certificate; build the intermediates pool;
run the explicit chain verification (reported as a message, never as an
error); and assemble the response. -/
def handler (net : Network) (ip rawURL : String) : HandlerResult :=
  if ip = "" ∨ rawURL = "" then
    HandlerResult.errorResponse 400 "Query parameters \x27ip\x27 and \x27url\x27 are required."
  else
    match runDial net (handlerDialCall ip rawURL) with
    | Except.error e =>
        HandlerResult.errorResponse 500 ("Failed to connect via TLS: " ++ e)
    | Except.ok conn =>
        match conn.peerCertificates with
        | [] => HandlerResult.errorResponse 500 "Server did not provide any certificates."
        | leaf :: rest =>
            HandlerResult.success
              { targetURL := "https://" ++ extractHostname rawURL
                certificates := buildCertInfos (leaf :: rest)
                chainValidation :=
                  validationMessageOf
                    (net.x509Verify (leaf :: rest)
                      { dnsName := extractHostname rawURL
                        intermediates := buildIntermediates (leaf :: rest) }) }

/-- The dial target of Endpoint B (`main.go` lines 198-201): the URL's
`Host`, or `Hostname() + ":443"` when the URL carries no port. -/
def endpointBDialTarget (u : URL) : String :=
  if urlPort u = "" then urlHostname u ++ ":443" else u.host

/-- The dial performed by Endpoint B (`main.go` line 204):
`tls.Dial("tcp", host, nil)` — a zero dialer (no timeout) and the
library-default config: server name inferred from the address and
handshake-time verification enabled. -/
def endpointBDialCall (u : URL) : DialCall :=
  { timeoutMillis := tlsDialDefaultTimeoutMillis
    network := "tcp"
    address := endpointBDialTarget u
    config := { serverName := serverNameFromAddr (endpointBDialTarget u)
                insecureSkipVerify := false } }

/-- The plain-text error message of `main.go` line 190. -/
def invalidURLMessage : String :=
  "Invalid \x27url\x27 format. Example: https://example.com:8443"

/-- Outcome of Endpoint B: an `http.Error` (message and status code),
or the success answer.  The Go success writes the text line
`SSL certificate for <rawURL> expires on <RFC3339 expiry>`; the model
carries the two values interpolated into that line (the echoed raw URL
and the leaf expiry instant). -/
inductive EndpointBResult where
  | httpError (message : String) (statusCode : Nat)
  | success (rawURL : String) (expiry : Time)
deriving DecidableEq

/-- Endpoint B — `handleRequest` of `main.go`, line by line: require
`url`; reject a parse failure, a non-`https` scheme or an empty host
with 400; default the port to 443; dial with a nil TLS config; fail
with 500 on a dial error or an empty peer chain; answer with the leaf
certificate expiry.  (The `debug` query parameter only switches console
prints and has no effect on the response.) -/
def handleRequest (net : Network) (rawURL : String) : EndpointBResult :=
  if rawURL = "" then
    EndpointBResult.httpError "Missing \x27url\x27 query parameter" 400
  else
    match urlParse rawURL with
    | none => EndpointBResult.httpError invalidURLMessage 400
    | some u =>
        if u.scheme = "https" ∧ u.host ≠ "" then
          match runDial net (endpointBDialCall u) with
          | Except.error _ =>
              EndpointBResult.httpError "Failed to connect to the server" 500
          | Except.ok conn =>
              match conn.peerCertificates with
              | [] => EndpointBResult.httpError "No certificates found" 500
              | leaf :: _ => EndpointBResult.success rawURL leaf.notAfter
        else EndpointBResult.httpError invalidURLMessage 400

/-- A concrete leaf certificate used to exercise the model. -/
def leafFixture : Certificate :=
  { subject := "CN=example.com"
    issuer := "CN=Test CA"
    notBefore := { unix := 1700000000, loc := "Local" }
    notAfter := { unix := 1800000000, loc := "Local" }
    dnsNames := ["example.com", "www.example.com"]
    isCA := false
    signatureAlgorithm := "SHA256-RSA" }

/-- A concrete intermediate certificate used to exercise the model. -/
def caFixture : Certificate :=
  { subject := "CN=Test CA"
    issuer := "CN=Test Root"
    notBefore := { unix := 1600000000, loc := "Local" }
    notAfter := { unix := 1900000000, loc := "Local" }
    dnsNames := []
    isCA := true
    signatureAlgorithm := "SHA256-RSA" }

/-- A concrete two-certificate peer chain, leaf first. -/
def chainFixture : List Certificate := [leafFixture, caFixture]

/-- A network on which every dial succeeds with `chainFixture` and both
verification oracles accept. -/
def okNet : Network :=
  { connect := fun _ => Except.ok chainFixture
    handshakeVerify := fun _ _ => none
    x509Verify := fun _ _ => none }

/-- A network like `okNet` whose explicit x509 chain verification fails
with a fixed diagnostic. -/
def failVerifyNet : Network :=
  { connect := fun _ => Except.ok chainFixture
    handshakeVerify := fun _ _ => none
    x509Verify := fun _ _ => some "x509: certificate signed by unknown authority" }

/-- A network on which every handshake completes with an empty peer
chain. -/
def emptyNet : Network :=
  { connect := fun _ => Except.ok []
    handshakeVerify := fun _ _ => none
    x509Verify := fun _ _ => none }

/-- The payload Endpoint A produces on `okNet` for
`ip=1.2.3.4, url=https://example.com`. -/
def resFixture : Response :=
  { targetURL := "https://example.com"
    certificates := buildCertInfos chainFixture
    chainValidation := "Certificate chain is valid." }

/-! ## Supporting lemmas -/

theorem certInfosLoop_cons_acc (certs : List Certificate) :
    ∀ (a : CertInfo) (as : List CertInfo),
      certInfosLoop certs (a :: as) = a :: (as ++ certs.map (mkCertInfo false)) := by
  induction certs with
  | nil => intro a as; simp [certInfosLoop]
  | cons c rest ih =>
      intro a as
      show certInfosLoop rest ((a :: as) ++ [mkCertInfo false c]) = _
      rw [List.cons_append, ih]
      simp

theorem buildCertInfos_cons (c : Certificate) (rest : List Certificate) :
    buildCertInfos (c :: rest) = mkCertInfo true c :: rest.map (mkCertInfo false) := by
  show certInfosLoop rest ([] ++ [mkCertInfo true c]) = _
  rw [List.nil_append]
  rw [certInfosLoop_cons_acc]
  simp

theorem length_buildCertInfos (certs : List Certificate) :
    (buildCertInfos certs).length = certs.length := by
  cases certs with
  | nil => rfl
  | cons c rest => rw [buildCertInfos_cons]; simp

theorem getElem?_buildCertInfos (certs : List Certificate) (i : Nat) :
    (buildCertInfos certs)[i]? = (certs[i]?).map (mkCertInfo (i == 0)) := by
  cases certs with
  | nil => simp [buildCertInfos, certInfosLoop]
  | cons c rest =>
      rw [buildCertInfos_cons]
      cases i with
      | zero => simp
      | succ j => simp

theorem mem_certPoolAdd (pool : List Certificate) (c d : Certificate) :
    d ∈ certPoolAdd pool c ↔ d ∈ pool ∨ d = c := by
  by_cases h : c ∈ pool
  · rw [certPoolAdd, if_pos h]
    constructor
    · exact Or.inl
    · rintro (hd | rfl)
      · exact hd
      · exact h
  · rw [certPoolAdd, if_neg h]
    simp

theorem mem_intermediatesLoop (d : Certificate) :
    ∀ (certs pool : List Certificate) (i : Nat), 1 ≤ i →
      (d ∈ intermediatesLoop i certs pool ↔ d ∈ pool ∨ d ∈ certs) := by
  intro certs
  induction certs with
  | nil => intro pool i _; simp [intermediatesLoop]
  | cons c rest ih =>
      intro pool i hi
      show d ∈ intermediatesLoop (i + 1) rest (if i > 0 then certPoolAdd pool c else pool) ↔ _
      rw [if_pos (by omega)]
      rw [ih (certPoolAdd pool c) (i + 1) (by omega)]
      rw [mem_certPoolAdd]
      simp only [List.mem_cons]
      tauto

theorem extractHostname_eq (rawURL : String) (u : URL) (hp : urlParse rawURL = some u)
    (hh : u.host ≠ "") : extractHostname rawURL = u.host := by
  simp [extractHostname, hp, hh]

theorem handler_run (net : Network) (ip rawURL : String) (leaf : Certificate)
    (rest : List Certificate) (hip : ip ≠ "") (hurl : rawURL ≠ "")
    (hconn : net.connect (joinHostPort ip "443") = Except.ok (leaf :: rest)) :
    handler net ip rawURL =
      HandlerResult.success
        { targetURL := "https://" ++ extractHostname rawURL
          certificates := buildCertInfos (leaf :: rest)
          chainValidation :=
            validationMessageOf
              (net.x509Verify (leaf :: rest)
                { dnsName := extractHostname rawURL
                  intermediates := buildIntermediates (leaf :: rest) }) } := by
  simp [handler, runDial, handlerDialCall, hip, hurl, hconn]

theorem handler_success_inv (net : Network) (ip rawURL : String) (res : Response)
    (h : handler net ip rawURL = HandlerResult.success res) :
    ip ≠ "" ∧ rawURL ≠ "" ∧
      ∃ leaf rest, net.connect (joinHostPort ip "443") = Except.ok (leaf :: rest) ∧
        res = { targetURL := "https://" ++ extractHostname rawURL
                certificates := buildCertInfos (leaf :: rest)
                chainValidation :=
                  validationMessageOf
                    (net.x509Verify (leaf :: rest)
                      { dnsName := extractHostname rawURL
                        intermediates := buildIntermediates (leaf :: rest) }) } := by
  by_cases hip : ip = ""
  · simp [handler, hip] at h
  · by_cases hurl : rawURL = ""
    · simp [handler, hurl] at h
    · refine ⟨hip, hurl, ?_⟩
      cases hc : net.connect (joinHostPort ip "443") with
      | error e => simp [handler, runDial, handlerDialCall, hip, hurl, hc] at h
      | ok chain =>
          cases chain with
          | nil => simp [handler, runDial, handlerDialCall, hip, hurl, hc] at h
          | cons leaf rest =>
              refine ⟨leaf, rest, rfl, ?_⟩
              have hrun := handler_run net ip rawURL leaf rest hip hurl hc
              rw [hrun] at h
              injection h with h2
              exact h2.symm

theorem handleRequest_run (net : Network) (rawURL : String) (u : URL) (leaf : Certificate)
    (rest : List Certificate) (hraw : rawURL ≠ "") (hp : urlParse rawURL = some u)
    (hs : u.scheme = "https") (hh : u.host ≠ "")
    (hconn : net.connect (endpointBDialTarget u) = Except.ok (leaf :: rest))
    (hhs : net.handshakeVerify (leaf :: rest)
      (serverNameFromAddr (endpointBDialTarget u)) = none) :
    handleRequest net rawURL = EndpointBResult.success rawURL leaf.notAfter := by
  simp [handleRequest, hraw, hp, hs, hh, runDial, endpointBDialCall, hconn, hhs]

theorem handleRequest_success_inv (net : Network) (rawURL r : String) (t : Time)
    (h : handleRequest net rawURL = EndpointBResult.success r t) :
    ∃ u leaf rest, urlParse rawURL = some u ∧ u.scheme = "https" ∧ u.host ≠ "" ∧
      net.connect (endpointBDialTarget u) = Except.ok (leaf :: rest) ∧
      r = rawURL ∧ t = leaf.notAfter := by
  by_cases hraw : rawURL = ""
  · simp [handleRequest, hraw] at h
  · cases hp : urlParse rawURL with
    | none => simp [handleRequest, hraw, hp] at h
    | some u =>
        by_cases hs : u.scheme = "https"
        · by_cases hh : u.host = ""
          · simp [handleRequest, hraw, hp, hh] at h
          · cases hc : net.connect (endpointBDialTarget u) with
            | error e =>
                simp [handleRequest, hraw, hp, hs, hh, runDial, endpointBDialCall, hc] at h
            | ok chain =>
                cases hhs : net.handshakeVerify chain
                    (serverNameFromAddr (endpointBDialTarget u)) with
                | some e =>
                    simp [handleRequest, hraw, hp, hs, hh, runDial, endpointBDialCall,
                      hc, hhs] at h
                | none =>
                    cases chain with
                    | nil =>
                        simp [handleRequest, hraw, hp, hs, hh, runDial, endpointBDialCall,
                          hc, hhs] at h
                    | cons leaf rest =>
                        have hrun := handleRequest_run net rawURL u leaf rest hraw hp hs hh hc hhs
                        rw [hrun] at h
                        injection h with h1 h2
                        exact ⟨u, leaf, rest, rfl, hs, hh, hc, h1.symm, h2.symm⟩
        · simp [handleRequest, hraw, hp, hs] at h

/-! ## Claim theorems -/

/-- C1: for every successfully returned chain, only the certificate
summary at index 0 carries subject-alternative-name (`dns_names`) data;
every summary at index 1 or greater has an empty `dns_names` field
(rendered as absent by `omitempty`). -/
theorem handler_sans_only_at_index_zero (net : Network) (ip rawURL : String)
    (res : Response) (i : Nat) (hres : handler net ip rawURL = HandlerResult.success res)
    (h1 : 1 ≤ i) (h2 : i < res.certificates.length) :
    (res.certificates.get ⟨i, h2⟩).dnsNames = [] := by
  obtain ⟨-, -, leaf, rest, -, hresEq⟩ := handler_success_inv net ip rawURL res hres
  have hc : res.certificates = buildCertInfos (leaf :: rest) := by rw [hresEq]
  have h3 : res.certificates[i]? = some (res.certificates.get ⟨i, h2⟩) := by
    rw [List.getElem?_eq_getElem h2]
    rfl
  have h4 : res.certificates[i]? = ((leaf :: rest)[i]?).map (mkCertInfo (i == 0)) := by
    rw [hc, getElem?_buildCertInfos]
  have hi0 : (i == 0) = false := by
    simp only [beq_eq_false_iff_ne, ne_eq]
    omega
  rw [h3, hi0] at h4
  cases hcc : (leaf :: rest)[i]? with
  | none => rw [hcc] at h4; simp at h4
  | some c =>
      rw [hcc] at h4
      simp only [Option.map_some'] at h4
      injection h4 with h5
      rw [h5]
      simp [mkCertInfo]

/-- C1 witness: on a concrete two-certificate chain the summary at
index 1 carries no subject-alternative names. -/
theorem handler_sans_only_at_index_zero_concrete :
    (resFixture.certificates.get ⟨1, by decide⟩).dnsNames = [] :=
  handler_sans_only_at_index_zero okNet "1.2.3.4" "https://example.com" resFixture 1
    (by decide) (by decide) (by decide)

/-- C2 (supporting theorem): the intermediates pool built on lines
98-103 of `check-ssl.go` contains exactly the certificates of the chain
at the indices 1 and above.  (The verification call itself, line 113,
is written `certs.Verify(validationOpts)` on the certificate slice,
which does not compile in Go — see the `Network.x509Verify` note.) -/
theorem mem_buildIntermediates (certs : List Certificate) (d : Certificate) :
    d ∈ buildIntermediates certs ↔ d ∈ certs.drop 1 := by
  cases certs with
  | nil => simp [buildIntermediates, intermediatesLoop]
  | cons c rest =>
      show d ∈ intermediatesLoop 1 rest (if 0 > 0 then certPoolAdd [] c else []) ↔ _
      rw [if_neg (by omega)]
      rw [mem_intermediatesLoop d rest [] 1 (le_refl 1)]
      simp

/-- C3: a chain-verification failure never turns the Inspector answer
into an error: the result is still a success (status 200) whose
`chain_validation_message` carries the diagnostic text of the verifier
instead of the canonical valid message. -/
theorem verify_failure_still_success (net : Network) (ip rawURL e : String)
    (leaf : Certificate) (rest : List Certificate)
    (hip : ip ≠ "") (hurl : rawURL ≠ "")
    (hconn : net.connect (joinHostPort ip "443") = Except.ok (leaf :: rest))
    (hver : net.x509Verify (leaf :: rest)
      { dnsName := extractHostname rawURL
        intermediates := buildIntermediates (leaf :: rest) } = some e) :
    (handler net ip rawURL).statusCode = 200 ∧
    ∃ res, handler net ip rawURL = HandlerResult.success res ∧
      res.chainValidation = "Certificate chain verification failed: " ++ e := by
  have hrun := handler_run net ip rawURL leaf rest hip hurl hconn
  rw [hrun]
  refine ⟨rfl, ⟨_, rfl, ?_⟩⟩
  rw [hver]
  rfl

/-- C3 witness: on a network whose chain verification rejects, Endpoint
A still answers with status 200 and the diagnostic in the message. -/
theorem verify_failure_still_success_concrete :
    (handler failVerifyNet "1.2.3.4" "https://example.com").statusCode = 200 ∧
    ∃ res, handler failVerifyNet "1.2.3.4" "https://example.com" = HandlerResult.success res ∧
      res.chainValidation =
        "Certificate chain verification failed: " ++
          "x509: certificate signed by unknown authority" :=
  verify_failure_still_success failVerifyNet "1.2.3.4" "https://example.com"
    "x509: certificate signed by unknown authority" leafFixture [caFixture]
    (by decide) (by decide) rfl rfl

/-- C4: a handshake that presents zero certificates makes both
endpoints fail with their no-certificates 500 error, and conversely a
successful answer always rests on a non-empty peer chain (for Endpoint
A the summary sequence itself is non-empty). -/
theorem no_certificates_behaviour (net : Network) (ip rawURLA rawB : String) :
    (ip ≠ "" → rawURLA ≠ "" → net.connect (joinHostPort ip "443") = Except.ok [] →
      handler net ip rawURLA =
        HandlerResult.errorResponse 500 "Server did not provide any certificates.") ∧
    (∀ res, handler net ip rawURLA = HandlerResult.success res → res.certificates ≠ []) ∧
    (∀ u : URL, rawB ≠ "" → urlParse rawB = some u → u.scheme = "https" → u.host ≠ "" →
      net.connect (endpointBDialTarget u) = Except.ok [] →
      net.handshakeVerify [] (serverNameFromAddr (endpointBDialTarget u)) = none →
      handleRequest net rawB = EndpointBResult.httpError "No certificates found" 500) ∧
    (∀ r t, handleRequest net rawB = EndpointBResult.success r t →
      ∃ u leaf rest, urlParse rawB = some u ∧
        net.connect (endpointBDialTarget u) = Except.ok (leaf :: rest)) := by
  refine ⟨?_, ?_, ?_, ?_⟩
  · intro hip hurl hconn
    simp [handler, runDial, handlerDialCall, hip, hurl, hconn]
  · intro res hres
    obtain ⟨-, -, leaf, rest, -, hresEq⟩ := handler_success_inv net ip rawURLA res hres
    rw [hresEq]
    simp [buildCertInfos_cons]
  · intro u hraw hp hs hh hconn hhs
    simp [handleRequest, hraw, hp, hs, hh, runDial, endpointBDialCall, hconn, hhs]
  · intro r t h
    obtain ⟨u, leaf, rest, hp, -, -, hconn, -, -⟩ := handleRequest_success_inv net rawB r t h
    exact ⟨u, leaf, rest, hp, hconn⟩

/-- C4 witness: on a network whose handshakes present zero
certificates, both endpoints answer with their 500 error. -/
theorem no_certificates_behaviour_concrete :
    handler emptyNet "1.2.3.4" "https://example.com" =
      HandlerResult.errorResponse 500 "Server did not provide any certificates." ∧
    handleRequest emptyNet "https://example.com" =
      EndpointBResult.httpError "No certificates found" 500 :=
  ⟨(no_certificates_behaviour emptyNet "1.2.3.4" "https://example.com"
      "https://example.com").1 (by decide) (by decide) rfl,
   (no_certificates_behaviour emptyNet "1.2.3.4" "https://example.com"
      "https://example.com").2.2.1 { scheme := "https", host := "example.com", path := "" }
      (by decide) (by decide) rfl (by decide) rfl rfl⟩

/-- C5: the Inspector handshake presents the validation name as the
indicated server name and sets `InsecureSkipVerify`, so the TLS-library
handshake-time chain validation is never consulted: the handler result
is unchanged under any replacement of the handshake-verification
oracle, and trust can only enter through the explicit `x509Verify`
pass. -/
theorem handshake_verification_not_consulted (net : Network)
    (f : List Certificate → String → Option String) (ip rawURL : String) :
    handler { net with handshakeVerify := f } ip rawURL = handler net ip rawURL ∧
    (handlerDialCall ip rawURL).config.insecureSkipVerify = true ∧
    (handlerDialCall ip rawURL).config.serverName = extractHostname rawURL := by
  refine ⟨?_, rfl, rfl⟩
  by_cases hip : ip = ""
  · simp [handler, hip]
  · by_cases hurl : rawURL = ""
    · simp [handler, hurl]
    · cases hc : net.connect (joinHostPort ip "443") with
      | error e => simp [handler, runDial, handlerDialCall, hip, hurl, hc]
      | ok chain => cases chain <;> simp [handler, runDial, handlerDialCall, hip, hurl, hc]

/-- C6: for a request with non-empty `ip` and `url`, the dial address
is built from the `ip` string (joined with port 443), the parsed host
of `url` serves as the indicated server name and as the verification
name, and the returned `target_url` is `https://` followed by that
host. -/
theorem handler_uses_ip_and_parsed_host (net : Network) (ip rawURL : String) (u : URL)
    (leaf : Certificate) (rest : List Certificate)
    (hip : ip ≠ "") (hurl : rawURL ≠ "") (hp : urlParse rawURL = some u) (hh : u.host ≠ "")
    (hconn : net.connect (joinHostPort ip "443") = Except.ok (leaf :: rest)) :
    (handlerDialCall ip rawURL).address = joinHostPort ip "443" ∧
    (handlerDialCall ip rawURL).config.serverName = u.host ∧
    handler net ip rawURL = HandlerResult.success
      { targetURL := "https://" ++ u.host
        certificates := buildCertInfos (leaf :: rest)
        chainValidation :=
          validationMessageOf
            (net.x509Verify (leaf :: rest)
              { dnsName := u.host
                intermediates := buildIntermediates (leaf :: rest) }) } := by
  have hex : extractHostname rawURL = u.host := extractHostname_eq rawURL u hp hh
  refine ⟨rfl, ?_, ?_⟩
  · show extractHostname rawURL = u.host
    exact hex
  · have hrun := handler_run net ip rawURL leaf rest hip hurl hconn
    rw [hex] at hrun
    exact hrun

/-- C6 witness: the spec example `ip=93.184.216.34, url=https://example.com`
dials `93.184.216.34:443`, indicates and verifies `example.com`, and
reports `target_url = https://example.com`. -/
theorem handler_uses_ip_and_parsed_host_concrete :
    (handlerDialCall "93.184.216.34" "https://example.com").address =
      joinHostPort "93.184.216.34" "443" ∧
    (handlerDialCall "93.184.216.34" "https://example.com").config.serverName =
      "example.com" ∧
    handler okNet "93.184.216.34" "https://example.com" = HandlerResult.success
      { targetURL := "https://" ++ "example.com"
        certificates := buildCertInfos (leafFixture :: [caFixture])
        chainValidation :=
          validationMessageOf
            (okNet.x509Verify (leafFixture :: [caFixture])
              { dnsName := "example.com"
                intermediates := buildIntermediates (leafFixture :: [caFixture]) }) } :=
  handler_uses_ip_and_parsed_host okNet "93.184.216.34" "https://example.com"
    { scheme := "https", host := "example.com", path := "" } leafFixture [caFixture]
    (by decide) (by decide) rfl (by decide) rfl

/-- C7: the successful answer carries exactly one summary per presented
certificate, in presentation order (leaf at index 0), every summary
field copied from the certificate at the same index, and both
timestamps normalized to UTC. -/
theorem summaries_match_chain (net : Network) (ip rawURL : String)
    (chain : List Certificate) (res : Response)
    (hconn : net.connect (joinHostPort ip "443") = Except.ok chain)
    (hres : handler net ip rawURL = HandlerResult.success res) :
    res.certificates.length = chain.length ∧
    ∀ i : Nat,
      (res.certificates[i]?).map CertInfo.subject = (chain[i]?).map Certificate.subject ∧
      (res.certificates[i]?).map CertInfo.issuer = (chain[i]?).map Certificate.issuer ∧
      (res.certificates[i]?).map CertInfo.notBefore =
        (chain[i]?).map (fun c => c.notBefore.utc) ∧
      (res.certificates[i]?).map CertInfo.notAfter =
        (chain[i]?).map (fun c => c.notAfter.utc) ∧
      (res.certificates[i]?).map CertInfo.isCA = (chain[i]?).map Certificate.isCA ∧
      (res.certificates[i]?).map CertInfo.signatureAlgo =
        (chain[i]?).map Certificate.signatureAlgorithm ∧
      (∀ s, res.certificates[i]? = some s →
        s.notBefore.loc = "UTC" ∧ s.notAfter.loc = "UTC") := by
  obtain ⟨-, -, leaf, rest, hconn2, hresEq⟩ := handler_success_inv net ip rawURL res hres
  rw [hconn2] at hconn
  injection hconn with hchain
  have hc : res.certificates = buildCertInfos chain := by
    rw [hresEq, hchain]
  constructor
  · rw [hc, length_buildCertInfos]
  · intro i
    rw [hc, getElem?_buildCertInfos]
    cases hcc : chain[i]? with
    | none => simp
    | some c => simp [mkCertInfo, Time.utc]

/-- C7 witness: on a concrete chain the summary list has the chain
length and the leaf summary timestamps are the UTC conversions. -/
theorem summaries_match_chain_concrete :
    resFixture.certificates.length = chainFixture.length ∧
    (resFixture.certificates[0]?).map CertInfo.notBefore =
      (chainFixture[0]?).map (fun c => c.notBefore.utc) :=
  ⟨(summaries_match_chain okNet "1.2.3.4" "https://example.com" chainFixture resFixture
      rfl (by decide)).1,
   ((summaries_match_chain okNet "1.2.3.4" "https://example.com" chainFixture resFixture
      rfl (by decide)).2 0).2.2.1⟩

/-- C8: for Endpoint B, a URL with an explicit port dials the `Host`
field itself (host and port), a URL without a port dials
`Hostname() + ":443"`, a dial error surfaces as the 500 connection
error, and a URL whose scheme is not `https` is answered 400 — on every
network, i.e. before any dial. -/
theorem endpointB_dial_target_spec (net : Network) (rawURL : String) (u : URL) :
    (rawURL ≠ "" → urlParse rawURL = some u → u.scheme = "https" → u.host ≠ "" →
      (urlPort u ≠ "" → endpointBDialTarget u = u.host) ∧
      (urlPort u = "" → endpointBDialTarget u = urlHostname u ++ ":443") ∧
      (∀ e, net.connect (endpointBDialTarget u) = Except.error e →
        handleRequest net rawURL =
          EndpointBResult.httpError "Failed to connect to the server" 500)) ∧
    (rawURL ≠ "" → urlParse rawURL = some u → u.scheme ≠ "https" →
      handleRequest net rawURL = EndpointBResult.httpError invalidURLMessage 400) := by
  constructor
  · intro hraw hp hs hh
    refine ⟨?_, ?_, ?_⟩
    · intro hport
      simp [endpointBDialTarget, hport]
    · intro hport
      simp [endpointBDialTarget, hport]
    · intro e hc
      simp [handleRequest, hraw, hp, hs, hh, runDial, endpointBDialCall, hc]
  · intro hraw hp hs
    simp [handleRequest, hraw, hp, hs]

/-- C8 witness: `https://example.com:8443/path` dials
`example.com:8443`, `https://example.com` dials `example.com:443`, and
`http://example.com` is answered 400 without dialing. -/
theorem endpointB_dial_target_spec_concrete :
    endpointBDialTarget { scheme := "https", host := "example.com:8443", path := "/path" } =
      "example.com:8443" ∧
    endpointBDialTarget { scheme := "https", host := "example.com", path := "" } =
      "example.com:443" ∧
    handleRequest okNet "http://example.com" =
      EndpointBResult.httpError invalidURLMessage 400 := by
  refine ⟨?_, ?_, ?_⟩
  · exact ((endpointB_dial_target_spec okNet "https://example.com:8443/path"
      { scheme := "https", host := "example.com:8443", path := "/path" }).1
      (by decide) rfl rfl (by decide)).1 (by decide)
  · exact (((endpointB_dial_target_spec okNet "https://example.com"
      { scheme := "https", host := "example.com", path := "" }).1
      (by decide) rfl rfl (by decide)).2.1 rfl).trans (by decide)
  · exact (endpointB_dial_target_spec okNet "http://example.com"
      { scheme := "http", host := "example.com", path := "" }).2
      (by decide) rfl (by decide)

/-- C9 counterexample: the claim extends the 5-second dial bound to
Endpoint B, but Endpoint B dials through `tls.Dial(_, _, nil)`, whose
default `net.Dialer` carries a zero timeout — no bound at all.  At the
concrete URL `https://example.com` the Endpoint B dial is unbounded. -/
theorem endpointB_dial_unbounded :
    ¬ dialBounded (endpointBDialCall
      { scheme := "https", host := "example.com", path := "" }).timeoutMillis := by
  simp [dialBounded, endpointBDialCall, tlsDialDefaultTimeoutMillis]

/-- C9 (amended): every Endpoint A connection attempt carries the
5-second dialer timeout, hence is bounded; no such bound exists for
Endpoint B. -/
theorem handler_dial_bounded_five_seconds (ip rawURL : String) :
    (handlerDialCall ip rawURL).timeoutMillis = 5000 ∧
    dialBounded (handlerDialCall ip rawURL).timeoutMillis := by
  exact ⟨rfl, by simp [dialBounded, handlerDialCall, handlerDialerTimeoutMillis]⟩

/-- C10: Endpoint A always dials `ip` joined with port 443, whatever
the `url` says; an explicit port of the `url` is not stripped from the
parsed host, so the server name (and verification name) keeps it — its
port field equals the port of the parsed URL. -/
theorem handler_dial_always_port_443 (ip rawURL : String) (u : URL)
    (hp : urlParse rawURL = some u) (hh : u.host ≠ "") :
    (handlerDialCall ip rawURL).address = joinHostPort ip "443" ∧
    (handlerDialCall ip rawURL).config.serverName = u.host ∧
    urlPort { scheme := ""
              host := (handlerDialCall ip rawURL).config.serverName
              path := "" } = urlPort u := by
  have hex : extractHostname rawURL = u.host := extractHostname_eq rawURL u hp hh
  refine ⟨rfl, hex, ?_⟩
  show urlPort { scheme := "", host := extractHostname rawURL, path := "" } = urlPort u
  rw [hex]
  rfl

/-- C10 witness: with `url=https://example.com:8443/path` the dial
address is still `93.184.216.34:443` while the server name keeps the
port: `example.com:8443`. -/
theorem handler_dial_always_port_443_concrete :
    (handlerDialCall "93.184.216.34" "https://example.com:8443/path").address =
      joinHostPort "93.184.216.34" "443" ∧
    (handlerDialCall "93.184.216.34" "https://example.com:8443/path").config.serverName =
      "example.com:8443" ∧
    urlPort { scheme := ""
              host := (handlerDialCall "93.184.216.34"
                "https://example.com:8443/path").config.serverName
              path := "" } =
      urlPort { scheme := "https", host := "example.com:8443", path := "/path" } :=
  handler_dial_always_port_443 "93.184.216.34" "https://example.com:8443/path"
    { scheme := "https", host := "example.com:8443", path := "/path" } rfl (by decide)

end SSLCheck
